import Mathlib

/-!
Shallow embedding of the job-digest aggregation pipeline of AdoTk1/TK_digest.

The repository holds two revisions of the same script:
* src/fetch_jobs.py (the "Pro Edition"): functions clean, has_title_keyword,
  find_skills, normalize_url, recency_pass, role_from_title, worktype_from_text,
  collect_jobs.
* src/daily-job-fetcher/fetch_jobs.py (the earlier revision, suffixed _v1 or
  named V1 here where names collide): clean_space, is_recent, infer_role_type,
  infer_remote_or_onsite, passes_policy, normalize_url, merge_and_filter.

Python strings are modelled as Lean String (a list of characters); str.lower is
modelled as mapping Char.toLower over the characters (ASCII case folding, which
agrees with Python on the ASCII inputs manipulated here).  The current wall
clock, used only to compare a parsed calendar date against "now", is passed
explicitly as the proleptic-Gregorian ordinal of the current UTC date (the same
ordinal that Python datetime.date.toordinal computes), so that every definition
is a pure function.
-/

/-- Lower-case the characters of a Python string: model of str.lower. -/
def pyLower (s : String) : String := ⟨s.data.map Char.toLower⟩

/-- The character list of str.lower, the form most helpers work on. -/
def lowChars (s : String) : List Char := s.data.map Char.toLower

/-- Model of the Python substring test: leadsWith p l is true when p is a
prefix of l (used to build the "in" operator and str.startswith). -/
def leadsWith : List Char → List Char → Bool
  | [], _ => true
  | _ :: _, [] => false
  | a :: as, b :: bs => a == b && leadsWith as bs

/-- Model of the Python membership test needle in hay on strings. -/
def containsSub : List Char → List Char → Bool
  | [], needle => needle.isEmpty
  | c :: t, needle => leadsWith needle (c :: t) || containsSub t needle

/-- Model of any(k in s for k in needles). -/
def containsAnyOf (hay : List Char) (needles : List String) : Bool :=
  needles.any fun n => containsSub hay n.data

/-- The regex class backslash-d restricted to ASCII (the only digits the
scraped freshness strings contain). -/
def isDigitCh (c : Char) : Bool := 48 ≤ c.toNat && c.toNat ≤ 57

/-- The regex whitespace class restricted to ASCII: space, tab, newline,
carriage return, vertical tab, form feed. -/
def isWsCh (c : Char) : Bool :=
  c == ' ' || c == '\t' || c == '\n' || c == '\r' || c.toNat == 11 || c.toNat == 12

/-- The regex word class (letters, digits, underscore), ASCII restriction. -/
def isWordCh (c : Char) : Bool :=
  isDigitCh c || (97 ≤ c.toNat && c.toNat ≤ 122) || (65 ≤ c.toNat && c.toNat ≤ 90) || c == '_'

/-- Numeric value of a digit run, as int() computes it on the matched group. -/
def digitsVal (ds : List Char) : Nat := ds.foldl (fun a c => a * 10 + (c.toNat - 48)) 0

/-- Attempt to match the regex (digits+)(ws+)(literal word) at the head of the
list, returning the numeric value of the digit group.  Greedy matching needs no
backtracking here: shortening the digit run would put a digit where the
whitespace class must match, and shortening the whitespace run would put a
whitespace character where the first letter of the word must match. -/
def numWordHere (w : List Char) (l : List Char) : Option Nat :=
  let (ds, r1) := l.span isDigitCh
  if ds.isEmpty then none
  else
    let (sp, r2) := r1.span isWsCh
    if sp.isEmpty then none
    else if leadsWith w r2 then some (digitsVal ds) else none

/-- Model of re.search for the pattern (digits+) ws+ word: try every start
position, leftmost first, exactly as the regex engine scans. -/
def searchNumWord (w : List Char) : List Char → Option Nat
  | [] => none
  | c :: t =>
    match numWordHere w (c :: t) with
    | some n => some n
    | none => searchNumWord w t

/-- Gregorian leap-year test, as in the Python datetime module. -/
def isLeapY (y : Nat) : Bool := (y % 4 == 0 && y % 100 != 0) || y % 400 == 0

/-- Length of a month, as in the Python datetime module. -/
def daysInMonth (y m : Nat) : Nat :=
  if m == 2 then (if isLeapY y then 29 else 28)
  else if m == 4 || m == 6 || m == 9 || m == 11 then 30
  else 31

/-- Model of datetime.date.toordinal: day count of year y, month m, day d in
the proleptic Gregorian calendar, day 1 being January 1 of year 1. -/
def toOrdinal (y m d : Nat) : Nat :=
  let py := y - 1
  py * 365 + py / 4 - py / 100 + py / 400
    + (List.range (m - 1)).foldl (fun a i => a + daysInMonth y (i + 1)) 0
    + d

/-- Model of datetime.fromisoformat applied to the first ten characters of the
freshness text, restricted to the plain calendar-date form YYYY-MM-DD that the
spec calls a plain calendar date (year at least 1, valid month and day). -/
def parseIsoDate : List Char → Option (Nat × Nat × Nat)
  | [y1, y2, y3, y4, '-', m1, m2, '-', d1, d2] =>
    if (isDigitCh y1 && isDigitCh y2 && isDigitCh y3 && isDigitCh y4
        && isDigitCh m1 && isDigitCh m2 && isDigitCh d1 && isDigitCh d2) then
      let y := digitsVal [y1, y2, y3, y4]
      let m := digitsVal [m1, m2]
      let d := digitsVal [d1, d2]
      if 1 ≤ y && 1 ≤ m && m ≤ 12 && 1 ≤ d && d ≤ daysInMonth y m then some (y, m, d)
      else none
    else none
  | _ => none

/-- Shared constant of both revisions: DAYS_WINDOW = 7. -/
def DAYS_WINDOW : Nat := 7

/-- src/fetch_jobs.py MAX_JOBS = 25. -/
def MAX_JOBS : Nat := 25

/-- src/daily-job-fetcher/fetch_jobs.py MAX_JOBS = 15. -/
def MAX_JOBS_v1 : Nat := 15

/-- src/fetch_jobs.py recency_pass (lines 84-100).  The date branch compares
the parsed calendar date with the current UTC date; the current date is the
explicit parameter nowOrd (its toordinal value), making the function pure. -/
def recency_pass (nowOrd : Nat) (date_text : String) : Bool :=
  let s := lowChars date_text
  if containsAnyOf s ["today", "just", "hour"] then true
  else
    match searchNumWord "day".data s with
    | some n => decide (n ≤ DAYS_WINDOW)
    | none =>
      match parseIsoDate (s.take 10) with
      | some (y, m, d) => decide ((nowOrd : Int) - (toOrdinal y m d : Int) ≤ (DAYS_WINDOW : Int))
      | none => true

/-- src/daily-job-fetcher/fetch_jobs.py is_recent (lines 33-51).  It has an
extra hours branch after the days branch, and parses the date from the
original (not lowercased) text; digits and dashes are unaffected by case. -/
def is_recent (nowOrd : Nat) (date_str : String) : Bool :=
  let s := lowChars date_str
  if containsAnyOf s ["today", "just", "hour"] then true
  else
    match searchNumWord "day".data s with
    | some n => decide (n ≤ DAYS_WINDOW)
    | none =>
      match searchNumWord "hour".data s with
      | some _ => true
      | none =>
        match parseIsoDate (date_str.data.take 10) with
        | some (y, m, d) => decide ((nowOrd : Int) - (toOrdinal y m d : Int) ≤ (DAYS_WINDOW : Int))
        | none => true

/-- src/fetch_jobs.py role_from_title (lines 102-112). -/
def role_from_title (title : String) : String :=
  let t := lowChars title
  if containsSub t "graduate".data && containsSub t "trainee".data then "Graduate Trainee"
  else if containsSub t "intern".data then "Intern"
  else if containsSub t "science".data then "Data Science"
  else if containsSub t "analyst".data then "Data Analyst"
  else "Other"

/-- src/daily-job-fetcher/fetch_jobs.py infer_role_type (lines 53-61): no
Data Science branch, and an explicit internship alternative. -/
def infer_role_type (title : String) : String :=
  let t := lowChars title
  if containsSub t "graduate".data && containsSub t "trainee".data then "Graduate Trainee"
  else if containsSub t "intern".data || containsSub t "internship".data then "Intern"
  else if containsSub t "analyst".data then "Data Analyst"
  else "Other"

/-- src/fetch_jobs.py worktype_from_text (lines 114-118). -/
def worktype_from_text (title location : String) : String :=
  let t := lowChars (title ++ " " ++ location)
  if containsAnyOf t ["remote", "hybrid", "work from home", "anywhere"] then "Remote"
  else "Onsite"

/-- src/daily-job-fetcher/fetch_jobs.py infer_remote_or_onsite (lines 63-67):
only three keywords, no anywhere. -/
def infer_remote_or_onsite (title location : String) : String :=
  let t := lowChars (title ++ " " ++ location)
  if containsSub t "remote".data || containsSub t "hybrid".data
      || containsSub t "work from home".data then "Remote"
  else "Onsite"

/-- src/daily-job-fetcher/fetch_jobs.py passes_policy (lines 69-75). -/
def passes_policy (role_type remote_onsite : String) : Bool :=
  if role_type == "Data Analyst" || role_type == "Intern" then remote_onsite == "Remote"
  else if role_type == "Graduate Trainee" then remote_onsite == "Onsite"
  else false

/-- src/fetch_jobs.py SKILL_KEYWORDS (lines 46-50), the fixed ordered
reference skill list. -/
def SKILL_KEYWORDS : List String :=
  ["SQL", "Excel", "Python", "Power BI", "Tableau", "R",
   "ETL", "Machine Learning", "ML", "Visualization", "Pandas",
   "NumPy", "DAX", "Looker", "DBT", "Airflow"]

/-- A word boundary holds against an adjacent character (none at the ends of
the text) when that character is not a word character; every skill keyword and
title keyword starts and ends with a word character, so this is the only case
the regexes exercise. -/
def bOk : Option Char → Bool
  | none => true
  | some c => !(isWordCh c)

/-- Case-insensitive literal match: strip term (a pattern literal) from the
head of the text, comparing lowercased characters as re.IGNORECASE does. -/
def stripCI : List Char → List Char → Option (List Char)
  | [], rest => some rest
  | _ :: _, [] => none
  | a :: as, b :: bs => if a.toLower == b.toLower then stripCI as bs else none

/-- Match a whole pattern at one position of the text, given the character
just before that position; patterns are boundary, literal(s), boundary. -/
def wbHere (term : List Char) (text : List Char) (prev : Option Char) : Bool :=
  bOk prev &&
    match stripCI term text with
    | some rest => bOk rest.head?
    | none => false

/-- Model of re.search: try the position-wise matcher at every start position,
leftmost first, threading the preceding character for the left boundary. -/
def searchPat (here : List Char → Option Char → Bool) : Option Char → List Char → Bool
  | prev, [] => here [] prev
  | prev, c :: t => here (c :: t) prev || searchPat here (some c) t

/-- Whole-word case-insensitive occurrence of a literal term in a text: the
meaning of re.search of backslash-b term backslash-b with re.IGNORECASE. -/
def wbMatch (term text : List Char) : Bool := searchPat (wbHere term) none text

/-- Relation ordering skills by their position in the reference list, the sort
key used by find_skills. -/
def idxLe (a b : String) : Prop := SKILL_KEYWORDS.indexOf a ≤ SKILL_KEYWORDS.indexOf b

instance : DecidableRel idxLe := fun a b =>
  inferInstanceAs (Decidable (SKILL_KEYWORDS.indexOf a ≤ SKILL_KEYWORDS.indexOf b))

/-- src/fetch_jobs.py find_skills (lines 68-75): collect the keywords that
occur as whole words (case-insensitively) in the text, then
sorted(set(found), key=SKILL_KEYWORDS.index)[:6].  Python set iteration order
is immaterial because sorted reorders by the (injective) index key; the set is
modelled by List.dedup and sorted by the stable insertionSort on idxLe. -/
def find_skills (text : String) : List String :=
  let found := SKILL_KEYWORDS.filter fun sk => wbMatch sk.data text.data
  (List.insertionSort idxLe found.dedup).take 6

/-- Split into maximal whitespace-free runs (the words of Python str.split). -/
def wordsAux : List Char → List Char → List (List Char)
  | cur, [] => if cur.isEmpty then [] else [cur.reverse]
  | cur, c :: t =>
    if isWsCh c then (if cur.isEmpty then wordsAux [] t else cur.reverse :: wordsAux [] t)
    else wordsAux (c :: cur) t

/-- Join words with single spaces. -/
def joinSp : List (List Char) → List Char
  | [] => []
  | [w] => w
  | w :: ws => w ++ ' ' :: joinSp ws

/-- src/fetch_jobs.py clean (lines 58-59): collapse every whitespace run to a
single space and strip the ends; equivalently, split into words and rejoin. -/
def clean (s : String) : String := ⟨joinSp (wordsAux [] s.data)⟩

/-- src/daily-job-fetcher/fetch_jobs.py clean_space (lines 30-31): the same
whitespace normalisation as clean. -/
def clean_space (s : String) : String := clean s

/-- Matcher for the two-literal title patterns (for example data ws* analyst):
boundary, first literal, any run of whitespace, second literal, boundary.  The
whitespace star needs no backtracking: both literals start and end with
letters, which are not whitespace. -/
def gapHere (w1 w2 : List Char) (text : List Char) (prev : Option Char) : Bool :=
  bOk prev &&
    match stripCI w1 text with
    | some r1 =>
      (match stripCI w2 (r1.dropWhile isWsCh) with
       | some r3 => bOk r3.head?
       | none => false)
    | none => false

/-- Matcher for the optional-suffix title patterns (analytics?, intern(ship)?):
boundary, stem, optionally the suffix, boundary.  The regex tries the greedy
alternative first; as a boolean the two orders agree. -/
def optHere (w suf : List Char) (text : List Char) (prev : Option Char) : Bool :=
  bOk prev &&
    match stripCI w text with
    | some r1 =>
      (match stripCI suf r1 with
       | some r2 => bOk r2.head?
       | none => false) || bOk r1.head?
    | none => false

/-- src/fetch_jobs.py has_title_keyword (lines 61-66) with TITLE_KEYWORDS
(lines 37-44): the five case-insensitive regexes data ws* analyst,
data ws* science, analytics?, graduate ws* trainee, intern(ship)?, all with
word boundaries, searched in the lowercased text. -/
def has_title_keyword (text : String) : Bool :=
  let t := lowChars text
  searchPat (gapHere "data".data "analyst".data) none t
    || searchPat (gapHere "data".data "science".data) none t
    || searchPat (optHere "analytic".data "s".data) none t
    || searchPat (gapHere "graduate".data "trainee".data) none t
    || searchPat (optHere "intern".data "ship".data) none t

/-- Longest prefix of a character list ending in a slash (empty when there is
no slash): the directory part used by relative reference resolution. -/
def upToLastSlash (l : List Char) : List Char :=
  match l with
  | [] => []
  | c :: t =>
    let r := upToLastSlash t
    if r.isEmpty && !(c == '/') then [] else c :: r

/-- Split off everything up to and including the first scheme separator
(colon slash slash), when present. -/
def findSchemeSep : List Char → Option (List Char × List Char)
  | [] => none
  | ':' :: '/' :: '/' :: t => some ([':', '/', '/'], t)
  | c :: t =>
    match findSchemeSep t with
    | some (p, r) => some (c :: p, r)
    | none => none

/-- Break a list at the first occurrence of a character (the remainder starts
with that character when it occurs). -/
def breakAt (c : Char) : List Char → List Char × List Char
  | [] => ([], [])
  | x :: t =>
    if x == c then ([], x :: t)
    else
      let (a, b) := breakAt c t
      (x :: a, b)

/-- Model of urllib.parse.urljoin, restricted to the reference shapes the
scrapers produce against an http(s) base: protocol-relative references keep
the scheme, absolute-path references keep scheme and authority, and other
relative references replace the last segment of the base path.  No claim
depends on the value this computes; it only keeps normalize_url total. -/
def urljoin (base href : String) : String :=
  match findSchemeSep base.data with
  | none => href
  | some (pre, rest) =>
    let (auth, path) := breakAt '/' rest
    if leadsWith ['/', '/'] href.data then ⟨pre.dropLast ++ href.data⟩
    else if leadsWith ['/'] href.data then ⟨pre ++ auth ++ href.data⟩
    else ⟨pre ++ auth ++ upToLastSlash path ++ href.data⟩

/-- src/fetch_jobs.py normalize_url (lines 77-82).  BeautifulSoup get returns
None when the attribute is missing, so the href argument is an Option; the
Python truthiness test if not href catches both None and the empty string. -/
def normalize_url (base : String) (href : Option String) : String :=
  match href with
  | none => ""
  | some h =>
    if h.isEmpty then ""
    else if leadsWith "http".data h.data then h
    else urljoin base h

/-- src/daily-job-fetcher/fetch_jobs.py normalize_url (lines 77-88): the
leading-slash branch and the fallback branch both call urljoin(base, href), so
the function computes the same results as the Pro revision. -/
def normalize_url_v1 (base : String) (href : Option String) : String :=
  normalize_url base href

/-- The raw posting record built by the Pro revision scrapers
(src/fetch_jobs.py, for example lines 132-140). -/
structure RawPro where
  title : String
  company : String
  location : String
  date : String
  source : String
  link : String
  desc : String
deriving DecidableEq

/-- A Pro posting after j.update(role_type, worktype, skills) in collect_jobs
(line 285). -/
structure JobPro where
  title : String
  company : String
  location : String
  date : String
  source : String
  link : String
  desc : String
  role_type : String
  worktype : String
  skills : List String
deriving DecidableEq

/-- The raw posting record built by the daily-job-fetcher revision scrapers
(no desc field). -/
structure RawV1 where
  title : String
  company : String
  location : String
  date : String
  source : String
  link : String
deriving DecidableEq

/-- A daily-job-fetcher posting after the role_type and remote_onsite keys are
added in merge_and_filter (lines 179-183). -/
structure JobV1 where
  title : String
  company : String
  location : String
  date : String
  source : String
  link : String
  role_type : String
  remote_onsite : String
deriving DecidableEq

/-- The dedup key (j.title.lower(), j.link) of collect_jobs line 276. -/
def keyOf (j : RawPro) : String × String := (pyLower j.title, j.link)

/-- The dedup key of merge_and_filter line 169. -/
def keyOfV1 (j : RawV1) : String × String := (pyLower j.title, j.link)

/-- The dedup key as read off an emitted Pro posting. -/
def keyJob (x : JobPro) : String × String := (pyLower x.title, x.link)

/-- The dedup key as read off an emitted daily-job-fetcher posting. -/
def keyJobV1 (x : JobV1) : String × String := (pyLower x.title, x.link)

/-- The classification step of collect_jobs (lines 280-285): role from the
title, work type from title and location, skills from the space-joined title
and description. -/
def classifyPro (j : RawPro) : JobPro :=
  { title := j.title, company := j.company, location := j.location, date := j.date,
    source := j.source, link := j.link, desc := j.desc,
    role_type := role_from_title j.title,
    worktype := worktype_from_text j.title j.location,
    skills := find_skills (j.title ++ " " ++ j.desc) }

/-- The classification step of merge_and_filter (lines 173-183). -/
def classifyV1 (j : RawV1) : JobV1 :=
  { title := j.title, company := j.company, location := j.location, date := j.date,
    source := j.source, link := j.link,
    role_type := infer_role_type j.title,
    remote_onsite := infer_remote_or_onsite j.title j.location }

/-- The shared shape of both merge loops: walk the flattened posting lists
with a seen-set of dedup keys; a posting whose key was already seen is
skipped wholesale; otherwise its key is recorded and the posting is emitted
when the emit function (the classification plus filters of the revision)
returns a value.  The Python set is modelled as the list of inserted keys. -/
def dedupEmit {ρ σ κ : Type} [DecidableEq κ] (key : ρ → κ) (emit : ρ → Option σ) :
    List κ → List ρ → List σ
  | _, [] => []
  | seen, j :: js =>
    if key j ∈ seen then dedupEmit key emit seen js
    else
      match emit j with
      | some x => x :: dedupEmit key emit (key j :: seen) js
      | none => dedupEmit key emit (key j :: seen) js

/-- The per-posting body of the collect_jobs loop (lines 274-286): classify
(the source binds role, wtype and skills before the recency test; they are
pure, so they are folded into classifyPro at emission), then keep the posting
when recency_pass accepts its date text.  There is no policy filter in this
revision. -/
def emitPro (nowOrd : Nat) (j : RawPro) : Option JobPro :=
  if recency_pass nowOrd j.date then some (classifyPro j) else none

/-- The per-posting body of the merge_and_filter loop (lines 167-183):
classify, then keep the posting when it passes the policy and is recent. -/
def emitV1 (nowOrd : Nat) (j : RawV1) : Option JobV1 :=
  if passes_policy (infer_role_type j.title) (infer_remote_or_onsite j.title j.location)
      && is_recent nowOrd j.date
  then some (classifyV1 j) else none

/-- src/fetch_jobs.py collect_jobs source_priority table (lines 289-292). -/
def source_priority : List (String × Nat) :=
  [("Indeed (Remote)", 0), ("Indeed (NG)", 1),
   ("MyJobMag", 2), ("Jobberman", 3), ("Jobzilla", 4), ("HotNigerianJobs", 5)]

/-- source_priority.get(source, 9): unlisted sources rank 9, after all listed
sources. -/
def priorityOf (s : String) : Nat := (source_priority.lookup s).getD 9

/-- Characters compared by code point, as Python compares strings. -/
def charLt (a b : Char) : Bool := a.toNat < b.toNat

/-- Lexicographic comparison of character lists by code point: the Python
less-than on strings (characters are equal exactly when their code points
are). -/
def clLt : List Char → List Char → Bool
  | [], [] => false
  | [], _ :: _ => true
  | _ :: _, [] => false
  | a :: as, b :: bs => charLt a b || (a.toNat == b.toNat && clLt as bs)

/-- The sort key of collect_jobs (lines 293-297):
(0 if worktype == Remote else 1, source priority, title.lower()). -/
def sortKey (x : JobPro) : Nat × Nat × List Char :=
  ((if x.worktype == "Remote" then 0 else 1), priorityOf x.source, lowChars x.title)

/-- One lexicographic layer: strictly smaller first component, or equal first
components and the remaining comparison k. -/
def natLexLt (a b : Nat) (k : Bool) : Bool := decide (a < b) || (decide (a = b) && k)

/-- Python tuple less-than on the sort keys. -/
def keyLt (a b : Nat × Nat × List Char) : Bool :=
  natLexLt a.1 b.1 (natLexLt a.2.1 b.2.1 (clLt a.2.2 b.2.2))

/-- The total preorder list.sort sorts by: a at or before b when the key of b
is not less than the key of a. -/
def jobLe (a b : JobPro) : Prop := keyLt (sortKey b) (sortKey a) = false

instance : DecidableRel jobLe := fun a b =>
  inferInstanceAs (Decidable (keyLt (sortKey b) (sortKey a) = false))

/-- src/fetch_jobs.py collect_jobs (lines 263-298) from the point where the
scraper outputs are in hand: dedup with first occurrence winning, classify,
recency-filter, stable sort by sortKey, truncate to MAX_JOBS.  Python
list.sort is stable, hence extensionally the stable insertion sort on the
induced total preorder jobLe. -/
def collect_jobs (nowOrd : Nat) (all_lists : List (List RawPro)) : List JobPro :=
  (List.insertionSort jobLe (dedupEmit keyOf (emitPro nowOrd) [] all_lists.flatten)).take
    MAX_JOBS

/-- src/daily-job-fetcher/fetch_jobs.py merge_and_filter (lines 163-185):
dedup with first occurrence winning, classify, policy- and recency-filter,
truncate to MAX_JOBS; there is no sorting step in this revision. -/
def merge_and_filter (nowOrd : Nat) (all_lists : List (List RawV1)) : List JobV1 :=
  (dedupEmit keyOfV1 (emitV1 nowOrd) [] all_lists.flatten).take MAX_JOBS_v1

/-- Per-anchor record construction of scrape_myjobmag in the Pro revision
(src/fetch_jobs.py lines 127-140): clean the anchor text, drop the record
unless the title matches a title keyword, resolve the href.  The other four
Pro scrapers share this guard shape. -/
def myjobmag_record (text : String) (href : Option String) : Option RawPro :=
  let title := clean text
  if has_title_keyword title then
    some { title := title, company := "—", location := "Nigeria", date := "",
           source := "MyJobMag",
           link := normalize_url "https://www.myjobmag.com/search/jobs?q=Data+Analyst" href,
           desc := "" }
  else none

/-- Per-card record construction of scrape_jobzilla in the Pro revision
(src/fetch_jobs.py lines 175-188).  The selector also picks plain h2 anchors,
so the href can be absent; nothing validates the resolved link. -/
def jobzilla_record (text : String) (href : Option String) : Option RawPro :=
  let title := clean text
  if has_title_keyword title then
    some { title := title, company := "—", location := "Nigeria", date := "",
           source := "Jobzilla",
           link := normalize_url "https://www.jobzilla.ng/jobs/data-analyst" href,
           desc := "" }
  else none

/-- Per-anchor record construction of scrape_jobberman in the daily-job-fetcher
revision (lines 145-158): no title guard at all — every selected anchor
produces a record, with company defaulted to the em dash. -/
def jobberman_record_v1 (text : String) (href : Option String) : RawV1 :=
  { title := clean_space text, company := "—", location := "Nigeria", date := "",
    source := "Jobberman",
    link := normalize_url_v1 "https://www.jobberman.com" href }

/-- The record list scrape_jobberman builds from the selected anchors
(text and href of each). -/
def jobberman_extract_v1 (anchors : List (String × Option String)) : List RawV1 :=
  anchors.map fun a => jobberman_record_v1 a.1 a.2

/-!  Generic facts about the merge loop shared by the two revisions. -/

section DedupEmitFacts

variable {ρ σ κ : Type} [DecidableEq κ] (key : ρ → κ) (emit : ρ → Option σ)

theorem dedupEmit_nil (seen : List κ) : dedupEmit key emit seen [] = [] := rfl

theorem dedupEmit_cons_mem (seen : List κ) (j : ρ) (js : List ρ) (h : key j ∈ seen) :
    dedupEmit key emit seen (j :: js) = dedupEmit key emit seen js := by
  simp [dedupEmit, h]

theorem dedupEmit_cons_emit (seen : List κ) (j : ρ) (js : List ρ) (h : key j ∉ seen)
    {x : σ} (he : emit j = some x) :
    dedupEmit key emit seen (j :: js) = x :: dedupEmit key emit (key j :: seen) js := by
  simp [dedupEmit, h, he]

theorem dedupEmit_cons_skip (seen : List κ) (j : ρ) (js : List ρ) (h : key j ∉ seen)
    (he : emit j = none) :
    dedupEmit key emit seen (j :: js) = dedupEmit key emit (key j :: seen) js := by
  simp [dedupEmit, h, he]

/-- Every posting the loop emits satisfies any property guaranteed by the
emit function. -/
theorem dedupEmit_invariant {P : σ → Prop} (hP : ∀ j x, emit j = some x → P x) :
    ∀ seen js, ∀ x ∈ dedupEmit key emit seen js, P x := by
  intro seen js
  induction js generalizing seen with
  | nil => intro x hx; simp [dedupEmit_nil] at hx
  | cons j js ih =>
    intro x hx
    by_cases hk : key j ∈ seen
    · rw [dedupEmit_cons_mem key emit seen j js hk] at hx
      exact ih seen x hx
    · cases he : emit j with
      | none =>
        rw [dedupEmit_cons_skip key emit seen j js hk he] at hx
        exact ih _ x hx
      | some y =>
        rw [dedupEmit_cons_emit key emit seen j js hk he] at hx
        rcases List.mem_cons.mp hx with h | h
        · exact h ▸ hP j y he
        · exact ih _ x h

/-- Every emitted posting comes from a first occurrence: a source record whose
key is neither in the initial seen set nor the key of any earlier record. -/
theorem dedupEmit_provenance :
    ∀ seen js x, x ∈ dedupEmit key emit seen js →
      ∃ l1 j l2, js = l1 ++ j :: l2 ∧ key j ∉ seen ∧ key j ∉ l1.map key ∧ emit j = some x := by
  intro seen js
  induction js generalizing seen with
  | nil => intro x hx; simp [dedupEmit_nil] at hx
  | cons j js ih =>
    intro x hx
    by_cases hk : key j ∈ seen
    · rw [dedupEmit_cons_mem key emit seen j js hk] at hx
      obtain ⟨l1, j', l2, hsplit, hs, hl, he⟩ := ih seen x hx
      refine ⟨j :: l1, j', l2, by rw [hsplit, List.cons_append], hs, ?_, he⟩
      rw [List.map_cons]
      intro hmem
      rcases List.mem_cons.mp hmem with h1 | h1
      · exact hs (by rw [h1]; exact hk)
      · exact hl h1
    · cases he : emit j with
      | none =>
        rw [dedupEmit_cons_skip key emit seen j js hk he] at hx
        obtain ⟨l1, j', l2, hsplit, hs, hl, he'⟩ := ih _ x hx
        refine ⟨j :: l1, j', l2, by rw [hsplit, List.cons_append],
          fun hmem => hs (List.mem_cons_of_mem _ hmem), ?_, he'⟩
        rw [List.map_cons]
        intro hmem
        rcases List.mem_cons.mp hmem with h1 | h1
        · exact hs (by rw [h1]; exact List.mem_cons_self _ _)
        · exact hl h1
      | some y =>
        rw [dedupEmit_cons_emit key emit seen j js hk he] at hx
        rcases List.mem_cons.mp hx with h | h
        · exact ⟨[], j, js, rfl, hk, by simp, by rw [← h] at he; exact he⟩
        · obtain ⟨l1, j', l2, hsplit, hs, hl, he'⟩ := ih _ x h
          refine ⟨j :: l1, j', l2, by rw [hsplit, List.cons_append],
            fun hmem => hs (List.mem_cons_of_mem _ hmem), ?_, he'⟩
          rw [List.map_cons]
          intro hmem
          rcases List.mem_cons.mp hmem with h1 | h1
          · exact hs (by rw [h1]; exact List.mem_cons_self _ _)
          · exact hl h1

/-- The key of every emitted posting avoids the seen set, provided the emit
function preserves keys (keyS reads the key back off an emitted posting). -/
theorem dedupEmit_key_avoid (keyS : σ → κ)
    (hco : ∀ j x, emit j = some x → keyS x = key j) :
    ∀ seen js, ∀ x ∈ dedupEmit key emit seen js, keyS x ∉ seen := by
  intro seen js
  induction js generalizing seen with
  | nil => intro x hx; simp [dedupEmit_nil] at hx
  | cons j js ih =>
    intro x hx
    by_cases hk : key j ∈ seen
    · rw [dedupEmit_cons_mem key emit seen j js hk] at hx
      exact ih seen x hx
    · cases he : emit j with
      | none =>
        rw [dedupEmit_cons_skip key emit seen j js hk he] at hx
        exact fun hmem => ih _ x hx (List.mem_cons_of_mem _ hmem)
      | some y =>
        rw [dedupEmit_cons_emit key emit seen j js hk he] at hx
        rcases List.mem_cons.mp hx with h | h
        · rw [h, hco j y he]
          exact hk
        · exact fun hmem => ih _ x h (List.mem_cons_of_mem _ hmem)

/-- No two emitted postings share a key. -/
theorem dedupEmit_keys_nodup (keyS : σ → κ)
    (hco : ∀ j x, emit j = some x → keyS x = key j) :
    ∀ seen js, List.Pairwise (fun a b => keyS a ≠ keyS b) (dedupEmit key emit seen js) := by
  intro seen js
  induction js generalizing seen with
  | nil => simp [dedupEmit_nil]
  | cons j js ih =>
    by_cases hk : key j ∈ seen
    · rw [dedupEmit_cons_mem key emit seen j js hk]
      exact ih seen
    · cases he : emit j with
      | none =>
        rw [dedupEmit_cons_skip key emit seen j js hk he]
        exact ih _
      | some y =>
        rw [dedupEmit_cons_emit key emit seen j js hk he]
        refine List.Pairwise.cons ?_ (ih _)
        intro z hz
        have hz' := dedupEmit_key_avoid key emit keyS hco _ _ z hz
        rw [hco j y he]
        exact fun hkey => hz' (by rw [← hkey]; exact List.mem_cons_self _ _)

/-- A record whose key was produced earlier (either in the seen set or by a
record before it in the list) is skipped wholesale: deleting it does not
change the output, whatever its own fields are. -/
theorem dedupEmit_skip :
    ∀ seen (a : List ρ) (q : ρ) (b : List ρ), (key q ∈ seen ∨ key q ∈ a.map key) →
      dedupEmit key emit seen (a ++ q :: b) = dedupEmit key emit seen (a ++ b) := by
  intro seen a q b h
  induction a generalizing seen with
  | nil =>
    rcases h with h | h
    · rw [List.nil_append, List.nil_append, dedupEmit_cons_mem key emit seen q b h]
    · simp at h
  | cons j a ih =>
    have hq : key q ∈ seen ∨ key q = key j ∨ key q ∈ a.map key := by
      rcases h with h | h
      · exact Or.inl h
      · rw [List.map_cons] at h
        rcases List.mem_cons.mp h with h1 | h1
        · exact Or.inr (Or.inl h1)
        · exact Or.inr (Or.inr h1)
    rw [List.cons_append, List.cons_append]
    by_cases hk : key j ∈ seen
    · rw [dedupEmit_cons_mem key emit seen j _ hk, dedupEmit_cons_mem key emit seen j _ hk]
      refine ih seen ?_
      rcases hq with h1 | h1 | h1
      · exact Or.inl h1
      · exact Or.inl (by rw [h1]; exact hk)
      · exact Or.inr h1
    · have hq' : key q ∈ key j :: seen ∨ key q ∈ a.map key := by
        rcases hq with h1 | h1 | h1
        · exact Or.inl (List.mem_cons_of_mem _ h1)
        · exact Or.inl (by rw [h1]; exact List.mem_cons_self _ _)
        · exact Or.inr h1
      cases he : emit j with
      | none =>
        rw [dedupEmit_cons_skip key emit seen j _ hk he,
          dedupEmit_cons_skip key emit seen j _ hk he]
        exact ih _ hq'
      | some y =>
        rw [dedupEmit_cons_emit key emit seen j _ hk he,
          dedupEmit_cons_emit key emit seen j _ hk he, ih _ hq']

end DedupEmitFacts


/-!  The sort key order: asymmetry and transitivity of the complement, giving
the totality and transitivity that the stable sort lemmas need. -/

theorem clLt_asymm : ∀ {a b : List Char}, clLt a b = true → clLt b a = false := by
  intro a
  induction a with
  | nil =>
    intro b h
    cases b with
    | nil => simp [clLt] at h
    | cons y ys => rfl
  | cons x xs ih =>
    intro b h
    cases b with
    | nil => simp [clLt] at h
    | cons y ys =>
      simp only [clLt, Bool.or_eq_true, Bool.and_eq_true, beq_iff_eq,
        charLt, decide_eq_true_eq] at h
      simp only [clLt, charLt, Bool.or_eq_false_iff, decide_eq_false_iff_not,
        Bool.and_eq_false_iff, beq_eq_false_iff_ne, ne_eq]
      rcases h with h | ⟨hxy, hrec⟩
      · exact ⟨by omega, Or.inl (by omega)⟩
      · exact ⟨by omega, Or.inr (ih hrec)⟩

theorem clLt_compl_trans :
    ∀ {a b c : List Char}, clLt b a = false → clLt c b = false → clLt c a = false := by
  intro a
  induction a with
  | nil =>
    intro b c _ _
    cases c with
    | nil => rfl
    | cons z zs => rfl
  | cons x xs ih =>
    intro b c hba hcb
    cases b with
    | nil => exact absurd hba (by simp [clLt])
    | cons y ys =>
      cases c with
      | nil => exact absurd hcb (by simp [clLt])
      | cons z zs =>
        simp only [clLt, charLt, Bool.or_eq_false_iff, decide_eq_false_iff_not,
          Bool.and_eq_false_iff, beq_eq_false_iff_ne, ne_eq] at hba hcb ⊢
        obtain ⟨h1, h2⟩ := hba
        obtain ⟨h3, h4⟩ := hcb
        refine ⟨by omega, ?_⟩
        by_cases hzx : z.toNat = x.toNat
        · have hyx : y.toNat = x.toNat := by omega
          have hzy : z.toNat = y.toNat := by omega
          rcases h2 with h2 | h2
          · exact absurd hyx h2
          · rcases h4 with h4 | h4
            · exact absurd hzy h4
            · exact Or.inr (ih h2 h4)
        · exact Or.inl hzx

theorem natLexLt_asymm {a b : Nat} {k k' : Bool} (hk : k = true → k' = false)
    (h : natLexLt a b k = true) : natLexLt b a k' = false := by
  simp only [natLexLt, Bool.or_eq_true, Bool.and_eq_true, decide_eq_true_eq] at h
  simp only [natLexLt, Bool.or_eq_false_iff, Bool.and_eq_false_iff,
    decide_eq_false_iff_not]
  rcases h with h | ⟨he, hkk⟩
  · exact ⟨by omega, Or.inl (by omega)⟩
  · exact ⟨by omega, Or.inr (hk hkk)⟩

theorem natLexLt_compl_trans {a b c : Nat} {k1 k2 k3 : Bool}
    (hk : k1 = false → k2 = false → k3 = false)
    (hba : natLexLt b a k1 = false) (hcb : natLexLt c b k2 = false) :
    natLexLt c a k3 = false := by
  simp only [natLexLt, Bool.or_eq_false_iff, Bool.and_eq_false_iff,
    decide_eq_false_iff_not] at hba hcb ⊢
  obtain ⟨h1, h2⟩ := hba
  obtain ⟨h3, h4⟩ := hcb
  refine ⟨by omega, ?_⟩
  by_cases hca : c = a
  · have hba' : b = a := by omega
    have hcb' : c = b := by omega
    rcases h2 with h2 | h2
    · exact absurd hba' h2
    · rcases h4 with h4 | h4
      · exact absurd hcb' h4
      · exact Or.inr (hk h2 h4)
  · exact Or.inl hca

theorem keyLt_asymm {a b : Nat × Nat × List Char} (h : keyLt a b = true) :
    keyLt b a = false :=
  natLexLt_asymm (fun h1 => natLexLt_asymm (fun h2 => clLt_asymm h2) h1) h

theorem keyLt_compl_trans {a b c : Nat × Nat × List Char}
    (hba : keyLt b a = false) (hcb : keyLt c b = false) : keyLt c a = false :=
  natLexLt_compl_trans
    (fun h1 h2 => natLexLt_compl_trans (fun g1 g2 => clLt_compl_trans g1 g2) h1 h2) hba hcb

instance : IsTotal JobPro jobLe :=
  ⟨fun a b => by
    by_cases h : keyLt (sortKey b) (sortKey a) = true
    · exact Or.inr (keyLt_asymm h)
    · exact Or.inl (Bool.eq_false_iff.mpr h)⟩

instance : IsTrans JobPro jobLe :=
  ⟨fun _ _ _ hab hbc => keyLt_compl_trans hab hbc⟩

/-- From jobLe and a Remote right-hand side, the left-hand side is Remote:
the first key component is 0 exactly for Remote postings, and jobLe bounds it. -/
theorem jobLe_remote {a b : JobPro} (h : jobLe a b) (hb : b.worktype = "Remote") :
    a.worktype = "Remote" := by
  by_cases ha : a.worktype = "Remote"
  · exact ha
  · exfalso
    have hkb : (sortKey b).1 = 0 := by simp [sortKey, hb]
    have hka : (sortKey a).1 = 1 := by
      simp only [sortKey]
      rw [if_neg (by simpa using ha)]
    unfold jobLe at h
    unfold keyLt at h
    rw [hka, hkb] at h
    simp [natLexLt] at h

/-- From jobLe with equal mode flags and equal source priorities, the
lowercased titles are ordered (the third key component decides). -/
theorem jobLe_title {a b : JobPro} (h : jobLe a b)
    (h1 : (sortKey a).1 = (sortKey b).1) (h2 : (sortKey a).2.1 = (sortKey b).2.1) :
    clLt (lowChars b.title) (lowChars a.title) = false := by
  unfold jobLe at h
  unfold keyLt at h
  have e3a : (sortKey a).2.2 = lowChars a.title := rfl
  have e3b : (sortKey b).2.2 = lowChars b.title := rfl
  rw [h1, h2, e3a, e3b] at h
  simpa [natLexLt] using h

/-!  Helper lemmas tying the emit functions to their guards. -/

theorem emitPro_eq_some {nowOrd : Nat} {j : RawPro} {x : JobPro}
    (h : emitPro nowOrd j = some x) :
    x = classifyPro j ∧ recency_pass nowOrd j.date = true := by
  unfold emitPro at h
  by_cases hr : recency_pass nowOrd j.date = true
  · rw [if_pos hr] at h
    exact ⟨(Option.some.inj h).symm, hr⟩
  · rw [if_neg hr] at h
    cases h

theorem emitV1_eq_some {nowOrd : Nat} {j : RawV1} {x : JobV1}
    (h : emitV1 nowOrd j = some x) :
    x = classifyV1 j ∧
      passes_policy (infer_role_type j.title) (infer_remote_or_onsite j.title j.location) = true ∧
      is_recent nowOrd j.date = true := by
  unfold emitV1 at h
  by_cases hp : (passes_policy (infer_role_type j.title) (infer_remote_or_onsite j.title j.location)
      && is_recent nowOrd j.date) = true
  · rw [if_pos hp] at h
    obtain ⟨h1, h2⟩ := Bool.and_eq_true_iff.mp hp
    exact ⟨(Option.some.inj h).symm, h1, h2⟩
  · rw [if_neg hp] at h
    cases h

theorem keyJob_classifyPro (j : RawPro) : keyJob (classifyPro j) = keyOf j := rfl

theorem keyJobV1_classifyV1 (j : RawV1) : keyJobV1 (classifyV1 j) = keyOfV1 j := rfl

/-- Case analysis of the policy: the only pairs passes_policy accepts. -/
theorem passes_policy_cases {r m : String} (h : passes_policy r m = true) :
    (r = "Data Analyst" ∨ r = "Intern") ∧ m = "Remote" ∨ r = "Graduate Trainee" ∧ m = "Onsite" := by
  unfold passes_policy at h
  by_cases h1 : (r == "Data Analyst" || r == "Intern") = true
  · rw [if_pos h1] at h
    refine Or.inl ⟨?_, by simpa using h⟩
    rcases Bool.or_eq_true_iff.mp h1 with h1 | h1
    · exact Or.inl (by simpa using h1)
    · exact Or.inr (by simpa using h1)
  · rw [if_neg h1] at h
    by_cases h2 : (r == "Graduate Trainee") = true
    · rw [if_pos h2] at h
      exact Or.inr ⟨by simpa using h2, by simpa using h⟩
    · rw [if_neg h2] at h
      cases h

/-!  Concrete postings used by the counterexamples and witnesses. -/

/-- A posting whose title matches no policy bucket: role Other. -/
def jobOther : RawPro :=
  { title := "Senior Backend Engineer", company := "—", location := "Lagos", date := "",
    source := "MyJobMag", link := "https://x/1", desc := "" }

/-- A posting whose freshness text fails the window. -/
def jobStale : RawPro :=
  { title := "Data Analyst", company := "—", location := "Remote", date := "30 days ago",
    source := "MyJobMag", link := "https://x/2", desc := "" }

/-- A posting with the same dedup key as jobStale but an empty (passing)
freshness text. -/
def jobFresh : RawPro :=
  { title := "Data Analyst", company := "—", location := "Remote", date := "",
    source := "MyJobMag", link := "https://x/2", desc := "" }

/-- A graduate-trainee posting of the earlier revision, onsite. -/
def jobGtV1 : RawV1 :=
  { title := "Graduate Trainee Program", company := "—", location := "Lagos", date := "",
    source := "Jobberman", link := "https://x/3" }

/-- A remote data-analyst posting of the earlier revision. -/
def jobDaV1 : RawV1 :=
  { title := "Data Analyst", company := "—", location := "Remote", date := "",
    source := "Jobberman", link := "https://x/4" }

/-- The record scrape_jobzilla builds from an h2 anchor that has a keyword
title but no href attribute: its link is the empty string. -/
def jobzillaNoHref : RawPro :=
  { title := "Data Analyst", company := "—", location := "Nigeria", date := "",
    source := "Jobzilla", link := "", desc := "" }

/-!  The claims. -/

/-- Claim C1, counterexample: the claim says every posting emitted by the
aggregation pipeline has a (roleType, workMode) pair among the allowed
combinations, but collect_jobs of the Pro revision applies no policy filter at
all: on the single posting jobOther it emits the pair (Other, Onsite), which
the claim says never appears. -/
theorem claim_C1_cex :
    (collect_jobs 739000 [[jobOther]]).map (fun x => (x.role_type, x.worktype))
      = [("Other", "Onsite")] := by decide

/-- Claim C1 (amended): policy soundness holds for the daily-job-fetcher
revision, whose merge_and_filter runs passes_policy: every emitted posting has
(roleType, workMode) among (Data Analyst, Remote), (Intern, Remote),
(Graduate Trainee, Onsite) — a subset of the claim's allowed set, Data Science
never being produced by that revision's classifier.  The Pro revision's
collect_jobs has no policy filter and emits other combinations. -/
theorem claim_C1 (nowOrd : Nat) (ls : List (List RawV1)) (x : JobV1)
    (hx : x ∈ merge_and_filter nowOrd ls) :
    (x.role_type, x.remote_onsite) ∈
      ([("Data Analyst", "Remote"), ("Intern", "Remote"), ("Graduate Trainee", "Onsite")]
        : List (String × String)) := by
  unfold merge_and_filter at hx
  have hx' := List.take_subset _ _ hx
  refine dedupEmit_invariant keyOfV1 (emitV1 nowOrd)
    (P := fun y => (y.role_type, y.remote_onsite) ∈
      ([("Data Analyst", "Remote"), ("Intern", "Remote"), ("Graduate Trainee", "Onsite")]
        : List (String × String))) ?_ [] ls.flatten x hx'
  intro j y he
  obtain ⟨hy, hp, -⟩ := emitV1_eq_some he
  have hcases := passes_policy_cases hp
  have hrole : y.role_type = infer_role_type j.title := by rw [hy]; rfl
  have hmode : y.remote_onsite = infer_remote_or_onsite j.title j.location := by rw [hy]; rfl
  rw [hrole, hmode]
  rcases hcases with ⟨h1 | h1, h2⟩ | ⟨h1, h2⟩ <;> simp [h1, h2]

/-- Claim C1 witness: the graduate-trainee posting jobGtV1 is emitted and the
theorem pins its pair inside the allowed set. -/
theorem claim_C1_witness :
    ((classifyV1 jobGtV1).role_type, (classifyV1 jobGtV1).remote_onsite) ∈
      ([("Data Analyst", "Remote"), ("Intern", "Remote"), ("Graduate Trainee", "Onsite")]
        : List (String × String)) :=
  claim_C1 739000 [[jobGtV1]] (classifyV1 jobGtV1) (by decide)

/-- Claim C2, counterexample: the claim says a title containing "analytics"
classifies as DataAnalyst (step 4) and one containing "science" as DataScience
(step 3).  role_from_title tests only the substring "analyst", which
"analytics" does not contain, so "Data Analytics" classifies as Other; and the
earlier revision's infer_role_type has no science branch at all, so
"Head of Data Science" classifies as Other there. -/
theorem claim_C2_cex :
    (role_from_title "Data Analytics" = "Other"
      ∧ role_from_title "Data Analytics" ≠ "Data Analyst")
    ∧ (infer_role_type "Head of Data Science" = "Other"
      ∧ infer_role_type "Head of Data Science" ≠ "Data Science") := by decide

/-- Claim C2 (amended): the first-match precedence over case-insensitive
substring tests of the title holds with step 4 reading "analyst" only (not
"analytics"): graduate AND trainee, else intern (internship contains intern),
else science, else analyst, else Other; intern beats analyst, as on
"Data Analyst Intern".  The earlier revision's infer_role_type follows the
same precedence without the science step. -/
theorem claim_C2 :
    (∀ t : String, (containsSub (lowChars t) "graduate".data
        && containsSub (lowChars t) "trainee".data) = true →
      role_from_title t = "Graduate Trainee")
    ∧ (∀ t : String, (containsSub (lowChars t) "graduate".data
        && containsSub (lowChars t) "trainee".data) = false →
        containsSub (lowChars t) "intern".data = true →
      role_from_title t = "Intern")
    ∧ (∀ t : String, (containsSub (lowChars t) "graduate".data
        && containsSub (lowChars t) "trainee".data) = false →
        containsSub (lowChars t) "intern".data = false →
        containsSub (lowChars t) "science".data = true →
      role_from_title t = "Data Science")
    ∧ (∀ t : String, (containsSub (lowChars t) "graduate".data
        && containsSub (lowChars t) "trainee".data) = false →
        containsSub (lowChars t) "intern".data = false →
        containsSub (lowChars t) "science".data = false →
        containsSub (lowChars t) "analyst".data = true →
      role_from_title t = "Data Analyst")
    ∧ (∀ t : String, (containsSub (lowChars t) "graduate".data
        && containsSub (lowChars t) "trainee".data) = false →
        containsSub (lowChars t) "intern".data = false →
        containsSub (lowChars t) "science".data = false →
        containsSub (lowChars t) "analyst".data = false →
      role_from_title t = "Other")
    ∧ role_from_title "Data Analyst Intern" = "Intern"
    ∧ (∀ t : String, (containsSub (lowChars t) "graduate".data
        && containsSub (lowChars t) "trainee".data) = true →
      infer_role_type t = "Graduate Trainee")
    ∧ (∀ t : String, (containsSub (lowChars t) "graduate".data
        && containsSub (lowChars t) "trainee".data) = false →
        (containsSub (lowChars t) "intern".data
          || containsSub (lowChars t) "internship".data) = true →
      infer_role_type t = "Intern")
    ∧ (∀ t : String, (containsSub (lowChars t) "graduate".data
        && containsSub (lowChars t) "trainee".data) = false →
        (containsSub (lowChars t) "intern".data
          || containsSub (lowChars t) "internship".data) = false →
        containsSub (lowChars t) "analyst".data = true →
      infer_role_type t = "Data Analyst")
    ∧ (∀ t : String, (containsSub (lowChars t) "graduate".data
        && containsSub (lowChars t) "trainee".data) = false →
        (containsSub (lowChars t) "intern".data
          || containsSub (lowChars t) "internship".data) = false →
        containsSub (lowChars t) "analyst".data = false →
      infer_role_type t = "Other") := by
  refine ⟨?_, ?_, ?_, ?_, ?_, by decide, ?_, ?_, ?_, ?_⟩
  · intro t h1
    simp [role_from_title, Bool.and_eq_true_iff.mp h1]
  · intro t h1 h2
    simp [role_from_title, h1, h2]
  · intro t h1 h2 h3
    simp [role_from_title, h1, h2, h3]
  · intro t h1 h2 h3 h4
    simp [role_from_title, h1, h2, h3, h4]
  · intro t h1 h2 h3 h4
    simp [role_from_title, h1, h2, h3, h4]
  · intro t h1
    simp [infer_role_type, Bool.and_eq_true_iff.mp h1]
  · intro t h1 h2
    simp [infer_role_type, h1, h2]
  · intro t h1 h2 h3
    simp [infer_role_type, h1, h2, h3]
  · intro t h1 h2 h3
    simp [infer_role_type, h1, h2, h3]

/-- Claim C3, counterexample: the claim says that when the input contains
several postings with an identical dedup key, exactly one entry with that key
appears in the output.  Feeding the stale posting jobStale twice, the first
occurrence claims the key and then fails the recency filter, so no entry with
that key appears at all. -/
theorem claim_C3_cex : collect_jobs 739000 [[jobStale, jobStale]] = [] := by decide

/-- Claim C3 (amended): the output never contains two entries sharing the
dedup key (lower-cased title, link) — in both revisions — and any emitted
entry is the classification of the first occurrence of its key in iteration
order.  But at most one entry with a given key appears, not exactly one: when
the first occurrence fails the filters, no entry with that key appears. -/
theorem claim_C3 :
    (∀ (nowOrd : Nat) (ls : List (List RawPro)),
      List.Pairwise (fun a b => keyJob a ≠ keyJob b) (collect_jobs nowOrd ls))
    ∧ (∀ (nowOrd : Nat) (ls : List (List RawV1)),
      List.Pairwise (fun a b => keyJobV1 a ≠ keyJobV1 b) (merge_and_filter nowOrd ls))
    ∧ (∀ (nowOrd : Nat) (ls : List (List RawPro)) (x : JobPro),
      x ∈ collect_jobs nowOrd ls →
        ∃ l1 j l2, ls.flatten = l1 ++ j :: l2 ∧ keyOf j ∉ l1.map keyOf ∧ x = classifyPro j)
    ∧ (∀ (nowOrd : Nat) (ls : List (List RawV1)) (x : JobV1),
      x ∈ merge_and_filter nowOrd ls →
        ∃ l1 j l2, ls.flatten = l1 ++ j :: l2 ∧ keyOfV1 j ∉ l1.map keyOfV1 ∧ x = classifyV1 j) := by
  have hcoPro : ∀ (nowOrd : Nat) (j : RawPro) (x : JobPro),
      emitPro nowOrd j = some x → keyJob x = keyOf j := by
    intro nowOrd j x he
    rw [(emitPro_eq_some he).1]
    rfl
  have hcoV1 : ∀ (nowOrd : Nat) (j : RawV1) (x : JobV1),
      emitV1 nowOrd j = some x → keyJobV1 x = keyOfV1 j := by
    intro nowOrd j x he
    rw [(emitV1_eq_some he).1]
    rfl
  refine ⟨?_, ?_, ?_, ?_⟩
  · intro nowOrd ls
    unfold collect_jobs
    have hm := dedupEmit_keys_nodup keyOf (emitPro nowOrd) keyJob (hcoPro nowOrd)
      [] ls.flatten
    have hs := ((List.perm_insertionSort jobLe _).pairwise_iff
      (fun h => Ne.symm h)).mpr hm
    exact List.Pairwise.sublist (List.take_sublist _ _) hs
  · intro nowOrd ls
    unfold merge_and_filter
    have hm := dedupEmit_keys_nodup keyOfV1 (emitV1 nowOrd) keyJobV1 (hcoV1 nowOrd)
      [] ls.flatten
    exact List.Pairwise.sublist (List.take_sublist _ _) hm
  · intro nowOrd ls x hx
    unfold collect_jobs at hx
    have hx1 := List.take_subset _ _ hx
    have hx2 := (List.mem_insertionSort jobLe).mp hx1
    obtain ⟨l1, j, l2, hsplit, -, hl, he⟩ :=
      dedupEmit_provenance keyOf (emitPro nowOrd) [] ls.flatten x hx2
    exact ⟨l1, j, l2, hsplit, hl, (emitPro_eq_some he).1⟩
  · intro nowOrd ls x hx
    unfold merge_and_filter at hx
    have hx1 := List.take_subset _ _ hx
    obtain ⟨l1, j, l2, hsplit, -, hl, he⟩ :=
      dedupEmit_provenance keyOfV1 (emitV1 nowOrd) [] ls.flatten x hx1
    exact ⟨l1, j, l2, hsplit, hl, (emitV1_eq_some he).1⟩

/-- Claim C4: bounded output.  In both revisions the final sequence is the
MAX_JOBS-prefix (25, respectively 15) of the pipeline's sequence, so its
length never exceeds the configured maximum, for arbitrarily long inputs. -/
theorem claim_C4 :
    (∀ (nowOrd : Nat) (ls : List (List RawPro)),
      (collect_jobs nowOrd ls).length ≤ MAX_JOBS
        ∧ collect_jobs nowOrd ls =
            (List.insertionSort jobLe (dedupEmit keyOf (emitPro nowOrd) [] ls.flatten)).take
              MAX_JOBS)
    ∧ (∀ (nowOrd : Nat) (ls : List (List RawV1)),
      (merge_and_filter nowOrd ls).length ≤ MAX_JOBS_v1
        ∧ merge_and_filter nowOrd ls =
            (dedupEmit keyOfV1 (emitV1 nowOrd) [] ls.flatten).take MAX_JOBS_v1) := by
  constructor
  · intro nowOrd ls
    refine ⟨?_, rfl⟩
    unfold collect_jobs
    rw [List.length_take]
    exact inf_le_left
  · intro nowOrd ls
    refine ⟨?_, rfl⟩
    unfold merge_and_filter
    rw [List.length_take]
    exact inf_le_left

/-- Claim C5: the freshness filter.  If the lowercased text contains today,
just or hour it passes; otherwise if the days regex matches with group N it
passes exactly when N is at most DAYS_WINDOW = 7; otherwise if the first ten
characters parse as a plain calendar date it passes exactly when the elapsed
days since that date are at most 7; in every other case — the empty string
included — it passes by default.  The same holds of the earlier revision's
is_recent (its extra hours branch is unreachable, since any text the hours
regex matches contains "hour"). -/
theorem claim_C5 :
    (∀ (nowOrd : Nat) (s : String),
      containsAnyOf (lowChars s) ["today", "just", "hour"] = true →
        recency_pass nowOrd s = true ∧ is_recent nowOrd s = true)
    ∧ (∀ (nowOrd : Nat) (s : String) (n : Nat),
      containsAnyOf (lowChars s) ["today", "just", "hour"] = false →
        searchNumWord "day".data (lowChars s) = some n →
        recency_pass nowOrd s = decide (n ≤ DAYS_WINDOW)
          ∧ is_recent nowOrd s = decide (n ≤ DAYS_WINDOW))
    ∧ (∀ (nowOrd : Nat) (s : String) (y m d : Nat),
      containsAnyOf (lowChars s) ["today", "just", "hour"] = false →
        searchNumWord "day".data (lowChars s) = none →
        parseIsoDate ((lowChars s).take 10) = some (y, m, d) →
        recency_pass nowOrd s = decide ((nowOrd : Int) - (toOrdinal y m d : Int) ≤ (DAYS_WINDOW : Int)))
    ∧ (∀ (nowOrd : Nat) (s : String),
      containsAnyOf (lowChars s) ["today", "just", "hour"] = false →
        searchNumWord "day".data (lowChars s) = none →
        parseIsoDate ((lowChars s).take 10) = none →
        recency_pass nowOrd s = true)
    ∧ (∀ (nowOrd : Nat) (s : String) (y m d : Nat),
      containsAnyOf (lowChars s) ["today", "just", "hour"] = false →
        searchNumWord "day".data (lowChars s) = none →
        searchNumWord "hour".data (lowChars s) = none →
        parseIsoDate (s.data.take 10) = some (y, m, d) →
        is_recent nowOrd s = decide ((nowOrd : Int) - (toOrdinal y m d : Int) ≤ (DAYS_WINDOW : Int)))
    ∧ (∀ (nowOrd : Nat) (s : String),
      containsAnyOf (lowChars s) ["today", "just", "hour"] = false →
        searchNumWord "day".data (lowChars s) = none →
        searchNumWord "hour".data (lowChars s) = none →
        parseIsoDate (s.data.take 10) = none →
        is_recent nowOrd s = true)
    ∧ (∀ nowOrd : Nat, recency_pass nowOrd "" = true ∧ is_recent nowOrd "" = true) := by
  refine ⟨?_, ?_, ?_, ?_, ?_, ?_, fun nowOrd => ⟨rfl, rfl⟩⟩
  · intro nowOrd s h
    constructor
    · simp [recency_pass, h]
    · simp [is_recent, h]
  · intro nowOrd s n h1 h2
    constructor
    · simp [recency_pass, h1, h2]
    · simp [is_recent, h1, h2]
  · intro nowOrd s y m d h1 h2 h3
    simp [recency_pass, h1, h2, h3]
  · intro nowOrd s h1 h2 h3
    simp [recency_pass, h1, h2, h3]
  · intro nowOrd s y m d h1 h2 h3 h4
    simp [is_recent, h1, h2, h3, h4]
  · intro nowOrd s h1 h2 h3 h4
    simp [is_recent, h1, h2, h3, h4]

/-- Claim C6, counterexample: the claim says the emitted sequence is sorted
with every Remote posting before every Onsite posting, but the daily-job-fetcher
revision's merge_and_filter has no ranking step at all: on input
[jobGtV1, jobDaV1] it emits the Onsite graduate-trainee posting before the
Remote analyst posting, in input order. -/
theorem claim_C6_cex :
    (merge_and_filter 739000 [[jobGtV1, jobDaV1]]).map (fun x => x.remote_onsite)
      = ["Onsite", "Remote"] := by decide

/-- Claim C6 (amended): the Pro revision's collect_jobs emits the stable sort
of the deduplicated, filtered sequence by the tuple
(workMode is not Remote, source priority with unlisted sources ranked 9,
lowercased title), truncated to MAX_JOBS: the output is sorted by that key,
every Remote posting precedes every Onsite posting, equal mode and priority
ties are in lowercase-title order, and re-sorting the output is a no-op.  The
daily-job-fetcher revision's merge_and_filter does not rank: its output is the
classified postings in input order (a sublist of the classified input). -/
theorem claim_C6 :
    (∀ (nowOrd : Nat) (ls : List (List RawPro)),
      collect_jobs nowOrd ls =
        (List.insertionSort jobLe (dedupEmit keyOf (emitPro nowOrd) [] ls.flatten)).take
          MAX_JOBS)
    ∧ (∀ (nowOrd : Nat) (ls : List (List RawPro)),
      List.Sorted jobLe (collect_jobs nowOrd ls))
    ∧ (∀ (nowOrd : Nat) (ls : List (List RawPro)),
      List.Pairwise (fun a b => b.worktype = "Remote" → a.worktype = "Remote")
        (collect_jobs nowOrd ls))
    ∧ (∀ (nowOrd : Nat) (ls : List (List RawPro)),
      List.Pairwise (fun a b => (sortKey a).1 = (sortKey b).1 →
          (sortKey a).2.1 = (sortKey b).2.1 →
          clLt (lowChars b.title) (lowChars a.title) = false)
        (collect_jobs nowOrd ls))
    ∧ (∀ (nowOrd : Nat) (ls : List (List RawPro)),
      List.insertionSort jobLe (collect_jobs nowOrd ls) = collect_jobs nowOrd ls) := by
  have hsorted : ∀ (nowOrd : Nat) (ls : List (List RawPro)),
      List.Sorted jobLe (collect_jobs nowOrd ls) := by
    intro nowOrd ls
    unfold collect_jobs
    exact List.Pairwise.sublist (List.take_sublist _ _)
      (List.sorted_insertionSort jobLe _)
  refine ⟨fun nowOrd ls => rfl, hsorted, ?_, ?_, ?_⟩
  · intro nowOrd ls
    exact List.Pairwise.imp (fun h hb => jobLe_remote h hb) (hsorted nowOrd ls)
  · intro nowOrd ls
    exact List.Pairwise.imp (fun h h1 h2 => jobLe_title h h1 h2) (hsorted nowOrd ls)
  · intro nowOrd ls
    exact List.Sorted.insertionSort_eq (hsorted nowOrd ls)

/-- Claim C7, counterexample: the claim says the classifier returns Remote
exactly when the lowercased concatenation of title and location contains one
of remote, hybrid, work from home, anywhere.  The earlier revision's
infer_remote_or_onsite omits "anywhere": on the title "Data Analyst
(anywhere)" with empty location, whose text contains "anywhere", it returns
Onsite. -/
theorem claim_C7_cex :
    infer_remote_or_onsite "Data Analyst (anywhere)" "" = "Onsite"
      ∧ containsSub (lowChars ("Data Analyst (anywhere)" ++ " " ++ "")) "anywhere".data
          = true := by decide

/-- Claim C7 (amended): the Pro revision's worktype_from_text returns Remote
exactly when the lowercased concatenation of title, a space and location
contains one of remote, hybrid, work from home, anywhere, and Onsite
otherwise; the earlier revision's infer_remote_or_onsite tests only remote,
hybrid and work from home.  Neither reads the role type. -/
theorem claim_C7 :
    (∀ t l : String, worktype_from_text t l = "Remote" ↔
      containsAnyOf (lowChars (t ++ " " ++ l))
        ["remote", "hybrid", "work from home", "anywhere"] = true)
    ∧ (∀ t l : String, worktype_from_text t l = "Onsite" ↔
      containsAnyOf (lowChars (t ++ " " ++ l))
        ["remote", "hybrid", "work from home", "anywhere"] = false)
    ∧ (∀ t l : String, infer_remote_or_onsite t l = "Remote" ↔
      (containsSub (lowChars (t ++ " " ++ l)) "remote".data
        || containsSub (lowChars (t ++ " " ++ l)) "hybrid".data
        || containsSub (lowChars (t ++ " " ++ l)) "work from home".data) = true) := by
  have hne : ("Onsite" : String) ≠ "Remote" := by decide
  have hne2 : ("Remote" : String) ≠ "Onsite" := by decide
  refine ⟨?_, ?_, ?_⟩
  · intro t l
    by_cases h : containsAnyOf (lowChars (t ++ " " ++ l))
        ["remote", "hybrid", "work from home", "anywhere"] = true
    · simp [worktype_from_text, h]
    · simp [worktype_from_text, h, hne]
  · intro t l
    by_cases h : containsAnyOf (lowChars (t ++ " " ++ l))
        ["remote", "hybrid", "work from home", "anywhere"] = true
    · simp [worktype_from_text, h, hne2]
    · simp [worktype_from_text, h]
  · intro t l
    by_cases h : (containsSub (lowChars (t ++ " " ++ l)) "remote".data
        || containsSub (lowChars (t ++ " " ++ l)) "hybrid".data
        || containsSub (lowChars (t ++ " " ++ l)) "work from home".data) = true
    · simp [infer_remote_or_onsite, h]
    · simp [infer_remote_or_onsite, h, hne]

/-- Claim C8: skill extraction.  find_skills equals the reference list
filtered by whole-word case-insensitive occurrence in the text, capped at 6:
so the result is deduplicated, ordered by the reference list's position (not
by first occurrence in the text) and at most 6 long; and the classifier
applies it to the space-joined concatenation of title and description. -/
theorem claim_C8 :
    (∀ text : String, find_skills text =
      (SKILL_KEYWORDS.filter fun sk => wbMatch sk.data text.data).take 6)
    ∧ (∀ text : String, (find_skills text).length ≤ 6)
    ∧ (∀ text : String, (find_skills text).Nodup)
    ∧ (∀ j : RawPro, (classifyPro j).skills = find_skills (j.title ++ " " ++ j.desc)) := by
  have hnodup : SKILL_KEYWORDS.Nodup := by decide
  have hpair : List.Pairwise idxLe SKILL_KEYWORDS := by decide
  have heq : ∀ text : String, find_skills text =
      (SKILL_KEYWORDS.filter fun sk => wbMatch sk.data text.data).take 6 := by
    intro text
    show List.take 6 (List.insertionSort idxLe
        (SKILL_KEYWORDS.filter fun sk => wbMatch sk.data text.data).dedup)
      = (SKILL_KEYWORDS.filter fun sk => wbMatch sk.data text.data).take 6
    rw [List.dedup_eq_self.mpr (hnodup.filter _)]
    rw [List.Sorted.insertionSort_eq (hpair.filter _)]
  refine ⟨heq, ?_, ?_, fun j => rfl⟩
  · intro text
    rw [heq text, List.length_take]
    exact inf_le_left
  · intro text
    rw [heq text]
    exact (hnodup.filter _).sublist (List.take_sublist _ _)

/-- Claim C9, counterexample: the claim says a record with a missing or empty
link, or a missing or empty title, is dropped by the Normalizer and never
enters the aggregation pipeline.  The earlier revision's Jobberman scraper
builds a record from an anchor with empty text without any guard — the
empty-title record enters the merge; and the Pro revision's Jobzilla scraper
accepts an h2 anchor with no href, producing an empty link that flows through
the whole aggregator into its output. -/
theorem claim_C9_cex :
    jobberman_record_v1 "" (some "http://example.com/job/1")
        = { title := "", company := "—", location := "Nigeria", date := "",
            source := "Jobberman", link := "http://example.com/job/1" }
      ∧ jobzilla_record "Data Analyst" none = some jobzillaNoHref
      ∧ (collect_jobs 739000 [[jobzillaNoHref]]).map (fun x => x.link) = [""] := by decide

/-- Claim C9 (amended): the Pro revision's scrapers drop a record whose
cleaned title matches no title keyword — in particular every empty-title
record — but nothing validates links: a missing or empty href resolves to the
empty string and the record is kept, and the earlier revision's Jobberman
scraper applies no title guard at all, emitting records with empty titles
into the aggregation pipeline. -/
theorem claim_C9 :
    (∀ (text : String) (href : Option String),
      has_title_keyword (clean text) = false → myjobmag_record text href = none)
    ∧ (∀ href : Option String, myjobmag_record "" href = none)
    ∧ (∀ base : String, normalize_url base none = "" ∧ normalize_url base (some "") = "")
    ∧ (∀ (text : String) (href : Option String),
      jobberman_record_v1 text href =
        { title := clean_space text, company := "—", location := "Nigeria", date := "",
          source := "Jobberman",
          link := normalize_url_v1 "https://www.jobberman.com" href }) := by
  have h1 : ∀ (text : String) (href : Option String),
      has_title_keyword (clean text) = false → myjobmag_record text href = none := by
    intro text href h
    simp [myjobmag_record, h]
  refine ⟨h1, fun href => h1 "" href (by decide), ?_, fun text href => rfl⟩
  intro base
  exact ⟨rfl, rfl⟩

/-- Claim C9 witness: a title of punctuation only is cleaned and dropped by
the Pro guard. -/
theorem claim_C9_witness : myjobmag_record "!!!" none = none :=
  claim_C9.1 "!!!" none (by decide)

/-- Claim C10: the dedup key is recorded in the seen set before the policy
and freshness filters run, so once any posting with a given key has been
encountered — even one the filters exclude — every later posting with the
same key is ignored wholesale, in both revisions: deleting the later
duplicate never changes the output. -/
theorem claim_C10 :
    (∀ (nowOrd : Nat) (l1 : List RawPro) (p : RawPro) (l2 : List RawPro) (q : RawPro)
        (l3 : List RawPro), keyOf q = keyOf p →
      collect_jobs nowOrd [l1 ++ p :: l2 ++ q :: l3] = collect_jobs nowOrd [l1 ++ p :: l2 ++ l3])
    ∧ (∀ (nowOrd : Nat) (l1 : List RawV1) (p : RawV1) (l2 : List RawV1) (q : RawV1)
        (l3 : List RawV1), keyOfV1 q = keyOfV1 p →
      merge_and_filter nowOrd [l1 ++ p :: l2 ++ q :: l3]
        = merge_and_filter nowOrd [l1 ++ p :: l2 ++ l3]) := by
  constructor
  · intro nowOrd l1 p l2 q l3 hq
    unfold collect_jobs
    have hskip := dedupEmit_skip keyOf (emitPro nowOrd) [] (l1 ++ p :: l2) q l3
      (Or.inr (by
        rw [hq]
        exact List.mem_map_of_mem keyOf (List.mem_append_right l1 (List.mem_cons_self p l2))))
    rw [show ([l1 ++ p :: l2 ++ q :: l3] : List (List RawPro)).flatten
          = (l1 ++ p :: l2) ++ q :: l3 by simp,
        show ([l1 ++ p :: l2 ++ l3] : List (List RawPro)).flatten
          = (l1 ++ p :: l2) ++ l3 by simp,
        hskip]
  · intro nowOrd l1 p l2 q l3 hq
    unfold merge_and_filter
    have hskip := dedupEmit_skip keyOfV1 (emitV1 nowOrd) [] (l1 ++ p :: l2) q l3
      (Or.inr (by
        rw [hq]
        exact List.mem_map_of_mem keyOfV1 (List.mem_append_right l1 (List.mem_cons_self p l2))))
    rw [show ([l1 ++ p :: l2 ++ q :: l3] : List (List RawV1)).flatten
          = (l1 ++ p :: l2) ++ q :: l3 by simp,
        show ([l1 ++ p :: l2 ++ l3] : List (List RawV1)).flatten
          = (l1 ++ p :: l2) ++ l3 by simp,
        hskip]

/-- Claim C10 witness: the stale posting jobStale claims the key and fails
the freshness filter; the later jobFresh with the same key would pass the
filters on its own, yet removing it changes nothing — both runs are empty. -/
theorem claim_C10_witness :
    collect_jobs 739000 [[jobStale, jobFresh]] = collect_jobs 739000 [[jobStale]]
      ∧ merge_and_filter 739000 [[jobDaV1, jobDaV1]] = merge_and_filter 739000 [[jobDaV1]] :=
  ⟨claim_C10.1 739000 [] jobStale [] jobFresh [] (by decide),
   claim_C10.2 739000 [] jobDaV1 [] jobDaV1 [] rfl⟩
